import Mathlib

/-!
Verification of the chunking / summarization pipeline of
`src/main.rs` (a YouTube-transcript summarizer).

The Rust source is shallowly embedded: pure functions become Lean
functions, the remote summarization endpoint and the transcript
subprocess become explicit oracles (functions passed as arguments), and
fallible code returns `Except`.
-/

namespace YtSum

/-- Rust `str::len`: the UTF-8 byte length of a string. -/
def rustLen (s : String) : Nat := (s.data.map Char.utf8Size).sum

/-- Helper for `splitWhitespace`: walks the character list carrying the
(reversed) current word; whitespace runs produce no empty words, matching
Rust `str::split_whitespace`. -/
def splitWsAux : List Char → List Char → List (List Char)
  | [], acc => if acc.isEmpty then [] else [acc.reverse]
  | c :: cs, acc =>
    if c.isWhitespace then
      if acc.isEmpty then splitWsAux cs []
      else acc.reverse :: splitWsAux cs []
    else splitWsAux cs (c :: acc)

/-- Rust `text.split_whitespace().collect::<Vec<&str>>()` (line 76):
split on whitespace runs, yielding no empty words. -/
def splitWhitespace (s : String) : List String :=
  (splitWsAux s.data []).map String.mk

/-- Rust `Vec::join(sep)`: the elements separated by `sep`. -/
def joinSep (sep : String) : List String → String
  | [] => ""
  | [w] => w
  | w :: ws => w ++ sep ++ joinSep sep ws

/-- The loop state of `chunk_text` (lines 77-79): completed chunks, the
words of the chunk being accumulated, and the running length counter. -/
structure ChunkState where
  chunks : List String
  currentChunk : List String
  currentLength : Nat

/-- One iteration of the `for word in words` loop of `chunk_text`
(lines 81-92): `word_len = word.len() + 1`; if the counter would exceed
`max_length`, flush a non-empty accumulator (joined with single spaces);
then push the word and add `word_len` to the counter. -/
def chunkStep (maxLength : Nat) (st : ChunkState) (word : String) : ChunkState :=
  let wordLen := rustLen word + 1
  let flushed :=
    if maxLength < st.currentLength + wordLen then
      if st.currentChunk.isEmpty then st
      else { chunks := st.chunks ++ [joinSep " " st.currentChunk],
             currentChunk := [], currentLength := 0 }
    else st
  { chunks := flushed.chunks,
    currentChunk := flushed.currentChunk ++ [word],
    currentLength := flushed.currentLength + wordLen }

/-- Rust `HuggingFaceSummarizer::chunk_text` (lines 75-99): greedy
word-preserving chunking under a byte budget, flushing the trailing
accumulator at the end. -/
def chunk_text (text : String) (maxLength : Nat) : List String :=
  let words := splitWhitespace text
  let final := words.foldl (chunkStep maxLength) ⟨[], [], 0⟩
  if final.currentChunk.isEmpty then final.chunks
  else final.chunks ++ [joinSep " " final.currentChunk]

/-- One element of the Hugging Face response array (struct `ApiResponse`,
lines 25-28): `{"summary_text": ...}`. -/
structure ApiResponse where
  summary_text : String
deriving DecidableEq

/-- The observable behaviour of one remote summarization call (lines
110-123): the POST can fail at the transport level (`send_json` errors),
the body can fail to parse as `Vec<ApiResponse>` (`into_json` errors), or
it yields a parsed array. -/
inductive ApiOutcome where
  | requestError
  | parseBad
  | success (response : List ApiResponse)
deriving DecidableEq

/-- The errors `summarize_text` can return, one per `anyhow` context
string: "Failed to send request to API" (line 120), "Failed to parse API
response" (line 123), "No summaries were generated" (line 131). None of
them carries the chunk index. -/
inductive SummarizeError where
  | requestFailed
  | parseFailed
  | noSummaries
deriving DecidableEq

/-- The `for (i, chunk) in chunks.iter().enumerate()` loop of
`summarize_text` (lines 107-128). The remote endpoint is an oracle `api`
from the call index and the chunk text to an outcome. A `?` failure
aborts the whole loop; a response whose array is empty is skipped by the
`if let Some(first_summary) = summary.first()` at line 125. -/
def summarizeLoop (api : Nat → String → ApiOutcome) :
    List String → Nat → List String → Except SummarizeError (List String)
  | [], _, summaries => .ok summaries
  | chunk :: rest, i, summaries =>
    match api i chunk with
    | .requestError => .error .requestFailed
    | .parseBad => .error .parseFailed
    | .success response =>
      match response.head? with
      | some first => summarizeLoop api rest (i + 1) (summaries ++ [first.summary_text])
      | none => summarizeLoop api rest (i + 1) summaries

/-- Rust `HuggingFaceSummarizer::summarize_text` (lines 101-136): chunk
the text with budget 1024, summarize every chunk sequentially, fail if no
summaries were collected, else join them with `"\n\n"`. -/
def summarize_text (api : Nat → String → ApiOutcome) (text : String) :
    Except SummarizeError String :=
  let chunks := chunk_text text 1024
  match summarizeLoop api chunks 0 [] with
  | .error e => .error e
  | .ok summaries =>
    if summaries.isEmpty then .error .noSummaries
    else .ok (joinSep "\n\n" summaries)

/-- The character class `[0-9A-Za-z_-]` of the video-id regex (line 44). -/
def isIdChar (c : Char) : Bool :=
  c.isAlphanum || c == '_' || c == '-'

/-- One attempt of the regex `(?:v=|/)([0-9A-Za-z_-]{11}).*` at a fixed
start position: the alternation tries `v=` then `/`, then exactly 11
id-characters must follow (the trailing `.*` always matches). Returns the
capture group. -/
def matchIdAt : List Char → Option (List Char)
  | 'v' :: '=' :: rest =>
    if (rest.take 11).length = 11 && (rest.take 11).all isIdChar then
      some (rest.take 11)
    else none
  | '/' :: rest =>
    if (rest.take 11).length = 11 && (rest.take 11).all isIdChar then
      some (rest.take 11)
    else none
  | _ => none

/-- Leftmost-match scan of the regex over the input, as
`Regex::captures` does. -/
def scanForId : List Char → Option (List Char)
  | [] => none
  | c :: cs =>
    match matchIdAt (c :: cs) with
    | some found => some found
    | none => scanForId cs

/-- Rust `HuggingFaceSummarizer::extract_video_id` (lines 43-48): the
first capture of `(?:v=|/)([0-9A-Za-z_-]{11}).*` in the URL, if any. -/
def extract_video_id (youtube_url : String) : Option String :=
  (scanForId youtube_url.data).map String.mk

/-- The `Summary` struct (lines 17-22). -/
structure Summary where
  video_id : Option String
  transcript : Option String
  summary : Option String
deriving DecidableEq

/-- The failures `process_video` can propagate: the
"Failed to extract video ID from URL" context (line 140), a
`get_transcript` failure (line 150, modelled by its message), or a
`summarize_text` failure (line 153). -/
inductive ProcessError where
  | extractFailed
  | transcriptFailed (msg : String)
  | summarizeFailed (e : SummarizeError)
deriving DecidableEq

/-- Rust `HuggingFaceSummarizer::process_video` (lines 138-157).
`get_transcript` shells out to python, so it is an oracle from the video
id to a transcript or an error message. The Rust code builds a local
`Summary` with `video_id` set, then fills `transcript`, then `summary`;
on any `?` failure that local value is dropped and only the `Err` is
returned, so the only observable `Summary` is the fully populated one. -/
def process_video (getTranscript : String → Except String String)
    (api : Nat → String → ApiOutcome) (youtube_url : String) :
    Except ProcessError Summary :=
  match extract_video_id youtube_url with
  | none => .error .extractFailed
  | some vid =>
    match getTranscript vid with
    | .error msg => .error (.transcriptFailed msg)
    | .ok transcript =>
      match summarize_text api transcript with
      | .error e => .error (.summarizeFailed e)
      | .ok s =>
        .ok { video_id := some vid, transcript := some transcript, summary := some s }

/-! ### Helpers about lengths, words and joins -/

/-- The counter contribution of a word list: each word's byte length
plus one, exactly the quantity `current_length` accumulates. -/
def sumLen (g : List String) : Nat := (g.map (fun w => rustLen w + 1)).sum

theorem rustLen_append (a b : String) : rustLen (a ++ b) = rustLen a + rustLen b := by
  simp [rustLen, String.data_append]

theorem length_le_rustLen (s : String) : s.length ≤ rustLen s := by
  show s.data.length ≤ (s.data.map Char.utf8Size).sum
  induction s.data with
  | nil => simp
  | cons c cs ih =>
    have hc := Char.utf8Size_pos c
    simp only [List.length_cons, List.map_cons, List.sum_cons]
    omega

theorem reverse_ne_nil_of_isEmpty_false {acc : List Char} (h : acc.isEmpty = false) :
    acc.reverse ≠ [] := by
  cases acc with
  | nil => simp at h
  | cons a as => simp

theorem splitWsAux_ne_nil (cs : List Char) :
    ∀ (acc : List Char), ∀ g ∈ splitWsAux cs acc, g ≠ [] := by
  induction cs with
  | nil =>
    intro acc g hg
    cases hemp : acc.isEmpty with
    | true => simp [splitWsAux, hemp] at hg
    | false =>
      simp [splitWsAux, hemp] at hg
      subst hg
      exact reverse_ne_nil_of_isEmpty_false hemp
  | cons c cs ih =>
    intro acc g hg
    cases hw : c.isWhitespace with
    | true =>
      cases hemp : acc.isEmpty with
      | true =>
        simp [splitWsAux, hw, hemp] at hg
        exact ih [] g hg
      | false =>
        simp [splitWsAux, hw, hemp] at hg
        rcases hg with hg | hg
        · subst hg; exact reverse_ne_nil_of_isEmpty_false hemp
        · exact ih [] g hg
    | false =>
      simp [splitWsAux, hw] at hg
      exact ih (c :: acc) g hg

theorem splitWhitespace_ne_empty (s : String) : ∀ w ∈ splitWhitespace s, w ≠ "" := by
  intro w hw
  simp only [splitWhitespace, List.mem_map] at hw
  obtain ⟨g, hg, rfl⟩ := hw
  have hne := splitWsAux_ne_nil s.data [] g hg
  intro hcontra
  exact hne (by simpa using congrArg String.data hcontra)

theorem joinSep_cons_cons (sep w v : String) (ws : List String) :
    joinSep sep (w :: v :: ws) = w ++ sep ++ joinSep sep (v :: ws) := rfl

theorem joinSep_append (sep : String) :
    ∀ (a b : List String), a ≠ [] → b ≠ [] →
      joinSep sep (a ++ b) = joinSep sep a ++ sep ++ joinSep sep b
  | [], _, ha, _ => absurd rfl ha
  | [w], b, _, hb => by
    cases b with
    | nil => exact absurd rfl hb
    | cons v vs => rfl
  | w :: v :: ws, b, _, hb => by
    have ih := joinSep_append sep (v :: ws) b (by simp) hb
    show joinSep sep (w :: ((v :: ws) ++ b)) = _
    rw [show (v :: ws) ++ b = v :: (ws ++ b) from rfl, joinSep_cons_cons,
      show v :: (ws ++ b) = (v :: ws) ++ b from rfl, ih, joinSep_cons_cons]
    simp [String.append_assoc]

theorem flatten_ne_nil {α : Type} (g : List α) (gs : List (List α)) (hg : g ≠ []) :
    (g :: gs).flatten ≠ [] := by
  intro hcontra
  rw [List.flatten_cons] at hcontra
  exact hg (List.append_eq_nil.mp hcontra).1

theorem joinSep_map_flatten : ∀ (gs : List (List String)), (∀ g ∈ gs, g ≠ []) →
    joinSep " " (gs.map (joinSep " ")) = joinSep " " gs.flatten
  | [], _ => rfl
  | [g], _ => by
    simp only [List.map_cons, List.map_nil, List.flatten_cons, List.flatten_nil,
      List.append_nil]
    rfl
  | g :: g' :: gs, h => by
    have hg : g ≠ [] := (h g (by simp))
    have hg' : g' ≠ [] := (h g' (by simp))
    have ih := joinSep_map_flatten (g' :: gs) (fun x hx => h x (List.mem_cons_of_mem _ hx))
    calc joinSep " " ((g :: g' :: gs).map (joinSep " "))
        = joinSep " " g ++ " " ++ joinSep " " ((g' :: gs).map (joinSep " ")) := by
          simp only [List.map_cons]
          exact joinSep_cons_cons " " _ _ _
      _ = joinSep " " g ++ " " ++ joinSep " " (g' :: gs).flatten := by rw [ih]
      _ = joinSep " " (g :: g' :: gs).flatten := by
          have hne : g' ++ gs.flatten ≠ [] :=
            fun hcontra => hg' (List.append_eq_nil.mp hcontra).1
          simp only [List.flatten_cons]
          rw [joinSep_append " " g (g' ++ gs.flatten) hg hne]

theorem sumLen_joinSep : ∀ (g : List String), g ≠ [] →
    rustLen (joinSep " " g) + 1 = sumLen g
  | [], h => absurd rfl h
  | [w], _ => by simp [joinSep, sumLen]
  | w :: v :: ws, _ => by
    have ih := sumLen_joinSep (v :: ws) (by simp)
    rw [joinSep_cons_cons, rustLen_append, rustLen_append]
    have hsp : rustLen " " = 1 := rfl
    simp only [sumLen, List.map_cons, List.sum_cons] at ih ⊢
    omega

theorem joinSep_ne_empty (g : List String) (hg : g ≠ []) (hw : ∀ w ∈ g, w ≠ "") :
    joinSep " " g ≠ "" := by
  cases g with
  | nil => exact absurd rfl hg
  | cons w ws =>
    cases ws with
    | nil => exact hw w (by simp)
    | cons v vs =>
      rw [joinSep_cons_cons]
      intro hcontra
      have hlen := congrArg String.length hcontra
      rw [String.length_append, String.length_append] at hlen
      have hone : (" " : String).length = 1 := rfl
      have hz : ("" : String).length = 0 := rfl
      omega

/-! ### The chunking loop invariant -/

/-- Invariant of the `chunk_text` loop after consuming the words `ws`:
the completed chunks are the space-joins of a list of word groups `gs`;
the groups followed by the accumulator partition `ws` in order; every
completed group is non-empty, and every completed group of at least two
words fitted the budget; the counter equals `sumLen` of the accumulator,
and a multi-word accumulator fits the budget. -/
def ChunkInv (maxLength : Nat) (ws : List String) (st : ChunkState) : Prop :=
  ∃ gs : List (List String),
    st.chunks = gs.map (joinSep " ") ∧
    gs.flatten ++ st.currentChunk = ws ∧
    (∀ g ∈ gs, g ≠ [] ∧ (2 ≤ g.length → sumLen g ≤ maxLength)) ∧
    st.currentLength = sumLen st.currentChunk ∧
    (2 ≤ st.currentChunk.length → st.currentLength ≤ maxLength)

theorem chunkStep_inv (m : Nat) (ws : List String) (st : ChunkState) (w : String)
    (h : ChunkInv m ws st) : ChunkInv m (ws ++ [w]) (chunkStep m st w) := by
  obtain ⟨gs, hchunks, hwords, hgroups, hlen, hbound⟩ := h
  simp only [chunkStep]
  split_ifs with hover hemp
  · -- budget exceeded, but the accumulator is empty: no flush, just push
    have hcur : st.currentChunk = [] := by
      cases hc : st.currentChunk with
      | nil => rfl
      | cons a as => rw [hc] at hemp; simp at hemp
    have hzero : st.currentLength = 0 := by rw [hlen, hcur]; rfl
    refine ⟨gs, hchunks, ?_, hgroups, ?_, ?_⟩
    · simp only [hcur, List.append_nil] at hwords
      simp [hcur, hwords]
    · simp [hcur, hzero, sumLen]
    · simp [hcur]
  · -- budget exceeded, non-empty accumulator: flush, then push
    refine ⟨gs ++ [st.currentChunk], ?_, ?_, ?_, ?_, ?_⟩
    · simp [hchunks]
    · simp only [List.flatten_append, List.flatten_cons, List.flatten_nil,
        List.append_nil, List.nil_append, List.append_assoc]
      rw [← List.append_assoc, hwords]
    · intro g hg
      rcases List.mem_append.mp hg with hmem | hmem
      · exact hgroups g hmem
      · have hgeq : g = st.currentChunk := by simpa using hmem
        subst hgeq
        refine ⟨?_, fun h2 => ?_⟩
        · cases hc : st.currentChunk with
          | nil => rw [hc] at hemp; simp at hemp
          | cons a as => simp
        · rw [← hlen]; exact hbound h2
    · simp [sumLen]
    · simp
  · -- the word fits: just push
    refine ⟨gs, hchunks, ?_, hgroups, ?_, fun _ => ?_⟩
    · rw [← List.append_assoc, hwords]
    · simp [sumLen, List.map_append, List.sum_append, hlen]
    · show st.currentLength + (rustLen w + 1) ≤ m
      omega

theorem chunkFoldl_inv (m : Nat) : ∀ (l ws : List String) (st : ChunkState),
    ChunkInv m ws st → ChunkInv m (ws ++ l) (l.foldl (chunkStep m) st)
  | [], ws, st, h => by simpa using h
  | w :: l, ws, st, h => by
    have h' := chunkStep_inv m ws st w h
    have hrec := chunkFoldl_inv m l (ws ++ [w]) (chunkStep m st w) h'
    simpa [List.append_assoc] using hrec

/-- The shape of `chunk_text`'s output: it is the space-join of a list of
word groups that partitions `splitWhitespace text` in order; every group
is non-empty and every multi-word group fits the budget. -/
theorem chunk_text_structure (text : String) (m : Nat) :
    ∃ gs : List (List String),
      chunk_text text m = gs.map (joinSep " ") ∧
      gs.flatten = splitWhitespace text ∧
      ∀ g ∈ gs, g ≠ [] ∧ (2 ≤ g.length → sumLen g ≤ m) := by
  have hinit : ChunkInv m [] ⟨[], [], 0⟩ :=
    ⟨[], rfl, rfl, by simp, by simp [sumLen], by simp⟩
  have hfin := chunkFoldl_inv m (splitWhitespace text) [] ⟨[], [], 0⟩ hinit
  rw [List.nil_append] at hfin
  obtain ⟨gs, hchunks, hwords, hgroups, hlen, hbound⟩ := hfin
  have heq : chunk_text text m =
      (if ((splitWhitespace text).foldl (chunkStep m) (⟨[], [], 0⟩ : ChunkState)).currentChunk.isEmpty
       then ((splitWhitespace text).foldl (chunkStep m) (⟨[], [], 0⟩ : ChunkState)).chunks
       else ((splitWhitespace text).foldl (chunkStep m) (⟨[], [], 0⟩ : ChunkState)).chunks ++
         [joinSep " " ((splitWhitespace text).foldl (chunkStep m)
           (⟨[], [], 0⟩ : ChunkState)).currentChunk]) := rfl
  set final := (splitWhitespace text).foldl (chunkStep m) (⟨[], [], 0⟩ : ChunkState) with hfd
  cases hemp : final.currentChunk.isEmpty with
  | true =>
    have hcur : final.currentChunk = [] := by
      cases hc : final.currentChunk with
      | nil => rfl
      | cons a as => rw [hc] at hemp; simp at hemp
    refine ⟨gs, ?_, ?_, hgroups⟩
    · rw [heq]
      simp [hemp, hchunks]
    · rw [hcur, List.append_nil] at hwords
      exact hwords
  | false =>
    have hcur : final.currentChunk ≠ [] := by
      cases hc : final.currentChunk with
      | nil => rw [hc] at hemp; simp at hemp
      | cons a as => simp
    refine ⟨gs ++ [final.currentChunk], ?_, ?_, ?_⟩
    · rw [heq]
      simp [hemp, hchunks]
    · simpa [List.flatten_append] using hwords
    · intro g hg
      rcases List.mem_append.mp hg with hmem | hmem
      · exact hgroups g hmem
      · have hgeq : g = final.currentChunk := by simpa using hmem
        subst hgeq
        exact ⟨hcur, fun h2 => hlen ▸ hbound h2⟩

/-! ### Claim C1 -/

/-- C1: for every input `text` and every `max_length ≥ 1`, joining the
chunks returned by `chunk_text text max_length` with single spaces equals
the words of `text` (split on whitespace) joined with single spaces — no
word is added, removed, duplicated, reordered or split — and when `text`
has zero words the returned sequence is empty. -/
theorem chunk_text_rejoin (text : String) (maxLength : Nat) (hm : 1 ≤ maxLength) :
    joinSep " " (chunk_text text maxLength) = joinSep " " (splitWhitespace text) ∧
    (splitWhitespace text = [] → chunk_text text maxLength = []) := by
  obtain ⟨gs, hck, hfl, hgr⟩ := chunk_text_structure text maxLength
  constructor
  · rw [hck, joinSep_map_flatten gs (fun g hg => (hgr g hg).1), hfl]
  · intro hempty
    rw [hck]
    cases gs with
    | nil => rfl
    | cons g rest =>
      exfalso
      rw [hempty] at hfl
      rw [List.flatten_cons] at hfl
      exact (hgr g (by simp)).1 (List.append_eq_nil.mp hfl).1

/-- Witness for C1 at `text = "a bb c"`, `max_length = 3`. -/
theorem chunk_text_rejoin_witness :
    1 ≤ 3 ∧
    (joinSep " " (chunk_text "a bb c" 3) = joinSep " " (splitWhitespace "a bb c") ∧
      (splitWhitespace "a bb c" = [] → chunk_text "a bb c" 3 = [])) :=
  ⟨by decide, chunk_text_rejoin "a bb c" 3 (by decide)⟩

/-! ### Claim C2 -/

/-- C2: for every input `text` and every `max_length ≥ 1`, every chunk
returned by `chunk_text text max_length` is a non-empty string whose
character length is at most `max_length`, unless the chunk consists of
exactly one word of the input whose own length exceeds `max_length`;
moreover such an oversized word is emitted alone as its own chunk, never
joined with other words. -/
theorem chunk_text_bound (text : String) (maxLength : Nat) (hm : 1 ≤ maxLength) :
    (∀ c ∈ chunk_text text maxLength,
      c ≠ "" ∧ (c.length ≤ maxLength ∨
        (c ∈ splitWhitespace text ∧ maxLength < c.length))) ∧
    (∀ w ∈ splitWhitespace text, maxLength < w.length →
      w ∈ chunk_text text maxLength) := by
  obtain ⟨gs, hck, hfl, hgr⟩ := chunk_text_structure text maxLength
  constructor
  · intro c hc
    rw [hck] at hc
    obtain ⟨g, hg, rfl⟩ := List.mem_map.mp hc
    have hgne : g ≠ [] := (hgr g hg).1
    have hwords : ∀ w ∈ g, w ∈ splitWhitespace text := by
      intro w hw
      rw [← hfl]
      exact List.mem_flatten.mpr ⟨g, hg, hw⟩
    refine ⟨joinSep_ne_empty g hgne
      (fun w hw => splitWhitespace_ne_empty text w (hwords w hw)), ?_⟩
    match g with
    | [w] =>
      by_cases hle : w.length ≤ maxLength
      · exact Or.inl (by simpa [joinSep] using hle)
      · refine Or.inr ⟨?_, ?_⟩
        · simpa [joinSep] using hwords w (by simp)
        · simpa [joinSep] using Nat.lt_of_not_le hle
    | w :: v :: rest =>
      have hfit : sumLen (w :: v :: rest) ≤ maxLength := (hgr _ hg).2 (by simp)
      have hjoin := sumLen_joinSep (w :: v :: rest) (by simp)
      have hchar := length_le_rustLen (joinSep " " (w :: v :: rest))
      exact Or.inl (by omega)
  · intro w hw hlong
    rw [← hfl] at hw
    obtain ⟨g, hg, hmem⟩ := List.mem_flatten.mp hw
    have hsingle : g = [w] := by
      match g, hmem with
      | [x], hmem =>
        have hwx : w = x := by simpa using hmem
        rw [hwx]
      | x :: y :: rest, hmem =>
        exfalso
        have hfit : sumLen (x :: y :: rest) ≤ maxLength := (hgr _ hg).2 (by simp)
        have hwin : rustLen w + 1 ∈ (x :: y :: rest).map (fun u => rustLen u + 1) :=
          List.mem_map_of_mem _ hmem
        have hle := List.le_sum_of_mem hwin
        have hbyte := length_le_rustLen w
        have : sumLen (x :: y :: rest) = ((x :: y :: rest).map (fun u => rustLen u + 1)).sum := rfl
        omega
    rw [hck]
    subst hsingle
    have : joinSep " " [w] = w := rfl
    exact this ▸ List.mem_map_of_mem (joinSep " ") hg

/-- Witness for C2 at `text = "abcd x"`, `max_length = 2` (the word
`"abcd"` is oversized and is emitted alone). -/
theorem chunk_text_bound_witness :
    1 ≤ 2 ∧
    ((∀ c ∈ chunk_text "abcd x" 2,
      c ≠ "" ∧ (c.length ≤ 2 ∨ (c ∈ splitWhitespace "abcd x" ∧ 2 < c.length))) ∧
    (∀ w ∈ splitWhitespace "abcd x", 2 < w.length → w ∈ chunk_text "abcd x" 2)) :=
  ⟨by decide, chunk_text_bound "abcd x" 2 (by decide)⟩

/-! ### Claim C3 -/

/-- C3 counterexample: `chunk_text "hello world foo" 11` is NOT
`["hello world", "foo"]`. The loop counter charges each word its length
plus one, so after `"hello"` the counter is 6 and adding `"world"` would
reach 12 > 11, which flushes `"hello"` alone. -/
theorem chunk_text_hello_neq :
    chunk_text "hello world foo" 11 ≠ ["hello world", "foo"] := by decide

/-- C3 (amended): `chunk_text "hello world foo" 11` returns
`["hello", "world foo"]` — the counter counts each word's length plus
one trailing separator, so `"hello"` contributes 6 and adding `"world"`
would make the counter 12 > 11, forcing a flush after `"hello"`. -/
theorem chunk_text_hello_eq :
    chunk_text "hello world foo" 11 = ["hello", "world foo"] := by decide

/-! ### Helpers about the summarization loop -/

/-- Did a remote call succeed (i.e. `send_json` and `into_json` both
returned `Ok`)? -/
def ApiOutcome.isSuccess : ApiOutcome → Bool
  | .success _ => true
  | _ => false

/-- The `summarize_text` error produced by a failing call, if the call
fails: `?` on `send_json` gives the request context, `?` on `into_json`
gives the parse context. -/
def ApiOutcome.toError : ApiOutcome → Option SummarizeError
  | .requestError => some .requestFailed
  | .parseBad => some .parseFailed
  | .success _ => none

/-- Specification-side description of what the loop collects when every
call succeeds: for each chunk in order, the `summary_text` of the first
element of its response array, nothing when the array is empty. -/
def extractedSummaries (api : Nat → String → ApiOutcome) :
    List String → Nat → List String
  | [], _ => []
  | chunk :: rest, i =>
    (match api i chunk with
     | .success response => (response.head?.map ApiResponse.summary_text).toList
     | _ => []) ++ extractedSummaries api rest (i + 1)

theorem summarizeLoop_success (api : Nat → String → ApiOutcome) :
    ∀ (chunks : List String) (i : Nat) (acc : List String),
      (∀ j, j < chunks.length → (api (i + j) (chunks.getD j "")).isSuccess = true) →
      summarizeLoop api chunks i acc = .ok (acc ++ extractedSummaries api chunks i)
  | [], i, acc, _ => by simp [summarizeLoop, extractedSummaries]
  | chunk :: rest, i, acc, h => by
    have h0 := h 0 (by simp)
    simp only [List.getD_cons_zero, Nat.add_zero] at h0
    have hrest : ∀ j, j < rest.length → (api (i + 1 + j) (rest.getD j "")).isSuccess = true := by
      intro j hj
      have := h (j + 1) (by simpa using Nat.succ_lt_succ hj)
      simp only [List.getD_cons_succ] at this
      have harith : i + (j + 1) = i + 1 + j := by omega
      rwa [harith] at this
    cases hapi : api i chunk with
    | requestError =>
      rw [hapi] at h0
      simp [ApiOutcome.isSuccess] at h0
    | parseBad =>
      rw [hapi] at h0
      simp [ApiOutcome.isSuccess] at h0
    | success response =>
      cases hh : response.head? with
      | some first =>
        have ih := summarizeLoop_success api rest (i + 1)
          (acc ++ [first.summary_text]) hrest
        simp only [summarizeLoop, hapi, hh, extractedSummaries, ih,
          Option.map_some, Option.toList_some]
        simp [List.append_assoc]
      | none =>
        have ih := summarizeLoop_success api rest (i + 1) acc hrest
        simp [summarizeLoop, hapi, hh, extractedSummaries, ih]

theorem summarizeLoop_abort (api : Nat → String → ApiOutcome) (e : SummarizeError) :
    ∀ (chunks : List String) (i : Nat) (acc : List String) (j : Nat),
      j < chunks.length →
      (∀ k, k < j → (api (i + k) (chunks.getD k "")).isSuccess = true) →
      (api (i + j) (chunks.getD j "")).toError = some e →
      summarizeLoop api chunks i acc = .error e
  | [], _, _, j, hj, _, _ => by simp at hj
  | chunk :: rest, i, acc, 0, _, _, hfail => by
    simp only [List.getD_cons_zero, Nat.add_zero] at hfail
    cases hapi : api i chunk with
    | requestError =>
      rw [hapi] at hfail
      simp only [ApiOutcome.toError, Option.some.injEq] at hfail
      simp [summarizeLoop, hapi, hfail]
    | parseBad =>
      rw [hapi] at hfail
      simp only [ApiOutcome.toError, Option.some.injEq] at hfail
      simp [summarizeLoop, hapi, hfail]
    | success response =>
      rw [hapi] at hfail
      simp [ApiOutcome.toError] at hfail
  | chunk :: rest, i, acc, j + 1, hj, hpre, hfail => by
    have h0 := hpre 0 (by omega)
    simp only [List.getD_cons_zero, Nat.add_zero] at h0
    have hpre' : ∀ k, k < j → (api (i + 1 + k) (rest.getD k "")).isSuccess = true := by
      intro k hk
      have := hpre (k + 1) (by omega)
      simp only [List.getD_cons_succ] at this
      have harith : i + (k + 1) = i + 1 + k := by omega
      rwa [harith] at this
    have hfail' : (api (i + 1 + j) (rest.getD j "")).toError = some e := by
      have harith : i + (j + 1) = i + 1 + j := by omega
      simp only [List.getD_cons_succ] at hfail
      rwa [harith] at hfail
    have ihsome : ∀ acc', summarizeLoop api rest (i + 1) acc' = .error e :=
      fun acc' => summarizeLoop_abort api e rest (i + 1) acc' j (by simpa using hj) hpre' hfail'
    cases hapi : api i chunk with
    | requestError =>
      rw [hapi] at h0
      simp [ApiOutcome.isSuccess] at h0
    | parseBad =>
      rw [hapi] at h0
      simp [ApiOutcome.isSuccess] at h0
    | success response =>
      cases hh : response.head? with
      | some first => simp [summarizeLoop, hapi, hh, ihsome]
      | none => simp [summarizeLoop, hapi, hh, ihsome]

/-- `summarize_text` when every remote call succeeds: the result is the
blank-line join of the extracted summaries, or the "no summaries" error
when nothing was extracted. -/
theorem summarize_text_of_success (api : Nat → String → ApiOutcome) (text : String)
    (h : ∀ j, j < (chunk_text text 1024).length →
      (api j ((chunk_text text 1024).getD j "")).isSuccess = true) :
    summarize_text api text =
      (if extractedSummaries api (chunk_text text 1024) 0 = [] then .error .noSummaries
       else .ok (joinSep "\n\n" (extractedSummaries api (chunk_text text 1024) 0))) := by
  have hloop := summarizeLoop_success api (chunk_text text 1024) 0 [] (by simpa using h)
  simp only [summarize_text, hloop, List.nil_append]
  cases hext : extractedSummaries api (chunk_text text 1024) 0 with
  | nil => simp
  | cons a rest => simp

/-! ### Concrete inputs used by witnesses and counterexamples -/

def bigWordA : String := String.mk (List.replicate 1024 'a')

def bigWordB : String := String.mk (List.replicate 1024 'b')

/-- A text whose 1024-budget chunking is exactly two chunks: each word
has byte length 1024, so the counter (length plus one) overflows the
budget and each word is emitted alone. -/
def twoChunkText : String := bigWordA ++ " " ++ bigWordB

set_option maxRecDepth 40000 in
theorem chunk_twoChunkText : chunk_text twoChunkText 1024 = [bigWordA, bigWordB] := by
  decide

/-! ### Claim C4 -/

/-- An endpoint whose first response parses as the empty JSON array and
whose second response carries summary text "B". -/
def apiEmptyThenB : Nat → String → ApiOutcome := fun i _ =>
  if i = 0 then .success [] else .success [⟨"B"⟩]

/-- C4 counterexample: with two chunks, a first response parsing as an
empty JSON array (no first element to read) and a second response
carrying "B", `summarize_text` succeeds with "B": the first chunk
neither contributes a summary nor makes the operation fail — the
`if let Some(first_summary) = summary.first()` at line 125 silently
skips it. -/
theorem summarize_skips_empty_response :
    (chunk_text twoChunkText 1024).length = 2 ∧
    summarize_text apiEmptyThenB twoChunkText = .ok "B" := by
  refine ⟨by rw [chunk_twoChunkText]; rfl, ?_⟩
  simp only [summarize_text, chunk_twoChunkText]
  rfl

/-- C4 (amended): for every chunk processed by `summarize_text`, either
its response array is non-empty and its first element's summary text
contributes to the final aggregate, or the operation fails immediately
with an error identifying the failing stage (request vs. parse failure) —
except that a response parsing as a JSON array with zero elements makes
its chunk contribute nothing *without* failing (it is silently skipped).
Part 1: with all calls succeeding, the result is exactly the extracted
first-element texts joined (or `noSummaries` when none were extracted).
Parts 2 and 3: a first transport (resp. parse) failure aborts the whole
operation with the matching stage error. -/
theorem summarize_chunk_accounting (api : Nat → String → ApiOutcome) (text : String) :
    ((∀ j, j < (chunk_text text 1024).length →
        (api j ((chunk_text text 1024).getD j "")).isSuccess = true) →
      summarize_text api text =
        (if extractedSummaries api (chunk_text text 1024) 0 = [] then .error .noSummaries
         else .ok (joinSep "\n\n" (extractedSummaries api (chunk_text text 1024) 0)))) ∧
    (∀ j, j < (chunk_text text 1024).length →
      (∀ k, k < j → (api k ((chunk_text text 1024).getD k "")).isSuccess = true) →
      api j ((chunk_text text 1024).getD j "") = .requestError →
      summarize_text api text = .error .requestFailed) ∧
    (∀ j, j < (chunk_text text 1024).length →
      (∀ k, k < j → (api k ((chunk_text text 1024).getD k "")).isSuccess = true) →
      api j ((chunk_text text 1024).getD j "") = .parseBad →
      summarize_text api text = .error .parseFailed) := by
  refine ⟨summarize_text_of_success api text, ?_, ?_⟩
  · intro j hj hpre hfail
    have hloop := summarizeLoop_abort api .requestFailed (chunk_text text 1024) 0 [] j hj
      (by simpa using hpre) (by rw [Nat.zero_add, hfail]; rfl)
    simp [summarize_text, hloop]
  · intro j hj hpre hfail
    have hloop := summarizeLoop_abort api .parseFailed (chunk_text text 1024) 0 [] j hj
      (by simpa using hpre) (by rw [Nat.zero_add, hfail]; rfl)
    simp [summarize_text, hloop]

/-- Witness for C4, exercising all three parts of the amended claim on
the one-chunk text "hi". -/
theorem summarize_chunk_accounting_witness :
    summarize_text (fun _ _ => .success []) "hi" = .error .noSummaries ∧
    summarize_text (fun _ _ => .requestError) "hi" = .error .requestFailed ∧
    summarize_text (fun _ _ => .parseBad) "hi" = .error .parseFailed := by
  refine ⟨?_, ?_, ?_⟩
  · have h := (summarize_chunk_accounting (fun _ _ => .success []) "hi").1 (by decide)
    rw [h]
    rfl
  · exact (summarize_chunk_accounting (fun _ _ => .requestError) "hi").2.1 0 (by decide)
      (fun k hk => absurd hk (Nat.not_lt_zero k)) rfl
  · exact (summarize_chunk_accounting (fun _ _ => .parseBad) "hi").2.2 0 (by decide)
      (fun k hk => absurd hk (Nat.not_lt_zero k)) rfl

/-! ### Claim C5 -/

/-- An endpoint failing transport-level already on the first call. -/
def apiFailFirst : Nat → String → ApiOutcome := fun _ _ => .requestError

/-- An endpoint whose first call succeeds and whose second call fails
transport-level. -/
def apiFailSecond : Nat → String → ApiOutcome := fun i _ =>
  if i = 0 then .success [⟨"A"⟩] else .requestError

/-- C5 counterexample: with two chunks, a transport failure on the second
call and a transport failure on the first call return the very same
error value — the error does not identify the failing chunk's position
(the Rust context is the constant string "Failed to send request to
API"; the chunk index is only printed to stdout, not part of the error). -/
theorem summarize_error_positionless :
    (chunk_text twoChunkText 1024).length = 2 ∧
    summarize_text apiFailSecond twoChunkText = .error .requestFailed ∧
    summarize_text apiFailFirst twoChunkText = .error .requestFailed := by
  refine ⟨by rw [chunk_twoChunkText]; rfl, ?_, ?_⟩
  · simp only [summarize_text, chunk_twoChunkText]
    rfl
  · simp only [summarize_text, chunk_twoChunkText]
    rfl

/-- C5 (amended): chunks are summarized strictly sequentially in document
order; if after successful earlier calls the call for chunk `i` fails at
the transport level, `summarize_text` returns the transport error (which
does not carry the chunk's position), no remote call is made for chunks
`i+1..n` — the result is the same for every endpoint `api'` that merely
agrees with `api` up to index `i` — and no partial-summary string is
returned (the result is an error, not an `ok`). -/
theorem summarize_transport_abort (api api' : Nat → String → ApiOutcome) (text : String)
    (i : Nat) (hlt : i < (chunk_text text 1024).length)
    (hpre : ∀ k, k < i → (api k ((chunk_text text 1024).getD k "")).isSuccess = true)
    (hfail : api i ((chunk_text text 1024).getD i "") = .requestError)
    (hagree : ∀ j, j ≤ i → ∀ c, api' j c = api j c) :
    summarize_text api' text = .error .requestFailed := by
  have hpre' : ∀ k, k < i →
      (api' (0 + k) ((chunk_text text 1024).getD k "")).isSuccess = true := by
    intro k hk
    rw [Nat.zero_add, hagree k (by omega)]
    exact hpre k hk
  have hfail' : (api' (0 + i) ((chunk_text text 1024).getD i "")).toError =
      some .requestFailed := by
    rw [Nat.zero_add, hagree i (le_refl i), hfail]
    rfl
  have hloop := summarizeLoop_abort api' .requestFailed (chunk_text text 1024) 0 [] i
    hlt hpre' hfail'
  simp [summarize_text, hloop]

/-- Witness for C5 on the one-chunk text "hi" with a transport failure on
the first call. -/
theorem summarize_transport_abort_witness :
    summarize_text apiFailFirst "hi" = .error .requestFailed :=
  summarize_transport_abort apiFailFirst apiFailFirst "hi" 0 (by decide)
    (fun k hk => absurd hk (Nat.not_lt_zero k)) rfl (fun _ _ _ => rfl)

/-! ### Claim C6 -/

/-- C6: if `summarize_text` processes all chunks with every remote call
succeeding (no transport or parse error) but zero summary texts were
extracted, it returns the distinct "No summaries were generated" error
rather than succeeding with an empty string. -/
theorem summarize_zero_extracted (api : Nat → String → ApiOutcome) (text : String)
    (hsucc : ∀ j, j < (chunk_text text 1024).length →
      (api j ((chunk_text text 1024).getD j "")).isSuccess = true)
    (hempty : extractedSummaries api (chunk_text text 1024) 0 = []) :
    summarize_text api text = .error .noSummaries := by
  rw [summarize_text_of_success api text hsucc, if_pos hempty]

/-- Witness for C6: one chunk, whose call succeeds with an empty
response array, so zero summaries are extracted. -/
theorem summarize_zero_extracted_witness :
    summarize_text (fun _ _ => .success []) "hello there" = .error .noSummaries :=
  summarize_zero_extracted (fun _ _ => .success []) "hello there" (by decide) rfl

/-! ### Claim C7 -/

/-- A URL from which the regex extracts the identifier "abcdefghijk". -/
def ytUrl : String := "https://youtube.com/watch?v=abcdefghijk"

/-- C7 counterexample: transcript fetching succeeds (the oracle returns
`"hello world"`) but summarization fails transport-level, and
`process_video` returns an error — NOT a `Summary` value. The local Rust
`Summary` whose `video_id` and `transcript` fields were populated is
dropped by the `?` operator at line 153, so the caller has no partially
populated result to inspect programmatically. -/
theorem process_video_error_no_result :
    process_video (fun _ => .ok "hello world") (fun _ _ => .requestError) ytUrl =
      .error (.summarizeFailed .requestFailed) := rfl

/-- C7 (amended): when identifier extraction and transcript fetching
succeed but summarization fails, `process_video` returns the wrapped
summarization error and no `SummaryResult` at all: the partially
populated record (identifier and transcript set) exists only as a local
value that the failure discards, so the caller cannot inspect it. -/
theorem process_video_summarize_error (getTranscript : String → Except String String)
    (api : Nat → String → ApiOutcome) (url vid transcript : String) (e : SummarizeError)
    (h1 : extract_video_id url = some vid)
    (h2 : getTranscript vid = .ok transcript)
    (h3 : summarize_text api transcript = .error e) :
    process_video getTranscript api url = .error (.summarizeFailed e) := by
  simp [process_video, h1, h2, h3]

/-- Witness for C7 at the concrete URL, a constant transcript oracle and
an endpoint failing transport-level. -/
theorem process_video_summarize_error_witness :
    process_video (fun _ => .ok "hi") (fun _ _ => .requestError) ytUrl =
      .error (.summarizeFailed .requestFailed) :=
  process_video_summarize_error (fun _ => .ok "hi") (fun _ _ => .requestError) ytUrl
    "abcdefghijk" "hi" .requestFailed (by decide) rfl rfl

/-! ### Claim C8 -/

/-- C8: when the text produces exactly one chunk and the endpoint answers
with the single-element array `[{"summary_text": x}]`, the final result
is exactly `x` with no separator; when it produces two chunks whose
calls succeed with summary texts `a` and `b` in document order, the
final result is exactly `a ++ "\n\n" ++ b` (blank-line joined, order
preserved). -/
theorem summarize_join_shape (api : Nat → String → ApiOutcome) (text : String) :
    (∀ c x, chunk_text text 1024 = [c] → api 0 c = .success [⟨x⟩] →
      summarize_text api text = .ok x) ∧
    (∀ c₁ c₂ a b, chunk_text text 1024 = [c₁, c₂] →
      api 0 c₁ = .success [⟨a⟩] → api 1 c₂ = .success [⟨b⟩] →
      summarize_text api text = .ok (a ++ "\n\n" ++ b)) := by
  constructor
  · intro c x hc hapi
    simp [summarize_text, hc, summarizeLoop, hapi, joinSep]
  · intro c₁ c₂ a b hc h0 h1
    simp [summarize_text, hc, summarizeLoop, h0, h1, joinSep]

/-- An endpoint answering "A" to the first call and "B" to the second. -/
def apiAnswersAB : Nat → String → ApiOutcome := fun i _ =>
  if i = 0 then .success [⟨"A"⟩] else .success [⟨"B"⟩]

/-- Witness for C8: the one-chunk text "hi" answered with "X", and the
two-chunk text answered with "A" then "B". -/
theorem summarize_join_shape_witness :
    summarize_text (fun _ _ => .success [⟨"X"⟩]) "hi" = .ok "X" ∧
    summarize_text apiAnswersAB twoChunkText = .ok ("A" ++ "\n\n" ++ "B") := by
  constructor
  · exact (summarize_join_shape (fun _ _ => .success [⟨"X"⟩]) "hi").1 "hi" "X"
      (by decide) rfl
  · exact (summarize_join_shape apiAnswersAB twoChunkText).2 bigWordA bigWordB "A" "B"
      chunk_twoChunkText rfl rfl

/-! ### Claim C9 -/

/-- C9: for every source string from which the identifier regex extracts
nothing, `process_video` fails with the identifier-not-found error
before any transcript fetch or summarization call — the result is the
same for EVERY transcript oracle and every endpoint oracle, i.e. neither
is consulted — and no `Summary` is returned. -/
theorem process_video_no_id (url : String) (h : extract_video_id url = none) :
    ∀ (getTranscript : String → Except String String) (api : Nat → String → ApiOutcome),
      process_video getTranscript api url = .error .extractFailed := by
  intro getTranscript api
  simp [process_video, h]

/-- Witness for C9 at the idless source string "hello". -/
theorem process_video_no_id_witness :
    process_video (fun _ => .ok "t") (fun _ _ => .success []) "hello" =
      .error .extractFailed :=
  process_video_no_id "hello" (by decide) (fun _ => .ok "t") (fun _ _ => .success [])

/-! ### Claim C10 -/

/-- C10: for every text with zero words (empty or whitespace-only),
`summarize_text` issues no remote request at all — the result is the
same for EVERY endpoint oracle — and returns the "no summaries" error
rather than succeeding with an empty summary. -/
theorem summarize_no_words (text : String) (h : splitWhitespace text = []) :
    ∀ api : Nat → String → ApiOutcome, summarize_text api text = .error .noSummaries := by
  intro api
  have hchunks : chunk_text text 1024 = [] := by
    simp [chunk_text, h]
  simp [summarize_text, hchunks, summarizeLoop]

/-- Witness for C10 at the whitespace-only text. -/
theorem summarize_no_words_witness :
    summarize_text (fun _ _ => .success [⟨"X"⟩]) "  " = .error .noSummaries :=
  summarize_no_words "  " (by decide) (fun _ _ => .success [⟨"X"⟩])

end YtSum
